import Mathlib

/-!
Verification of the cohort filter-tree parser and dependency extractor from
`src/rust/feature-flags/src/cohort/cohort_operations.rs`.

The JSON data model, the typed filter structures, and the fallible decoding
step (serde's `from_value`) live in `cohort_models.rs`, which is not part of
the shown sources; those definitions are modelled from the specification and
marked as such in their doc comments.  Everything else is translated directly
from `cohort_operations.rs`.
-/

/-- A model of a `serde_json::Value`: the loosely-typed persisted filter value. -/
inductive Json where
  | null : Json
  | bool : Bool → Json
  | int : Int → Json
  | str : String → Json
  | arr : List Json → Json
  | obj : List (String × Json) → Json

/-- Field lookup on a JSON object; `none` on any non-object or missing field. -/
def Json.getField (j : Json) (k : String) : Option Json :=
  match j with
  | .obj fields => fields.lookup k
  | _ => none

/-- A model of `serde_json::Value::as_i64`: succeeds exactly on integer numbers
representable as a 64-bit signed integer. -/
def Json.as_i64 (j : Json) : Option Int :=
  match j with
  | .int n => if -(2 ^ 63) ≤ n ∧ n < 2 ^ 63 then some n else none
  | _ => none

/-- Modelled from the spec: `CohortId` is declared in `cohort_models.rs` (not in
the shown sources); the spec describes a cohort id as an integer identifier. -/
abbrev CohortId := Int

/-- Modelled from the spec: the combinator type of `cohort_models.rs` "must be
read as an open string that round-trips; unknown values are preserved, not
rejected". -/
abbrev CohortPropertyType := String

/-- Modelled from the spec: a leaf condition of the filter tree
(`PropertyFilter` in `cohort_models.rs`, not in the shown sources). -/
structure PropertyFilter where
  key : String
  value : Json
  operator : Option String
  prop_type : String
  group_type_index : Option Int
  negation : Option Bool

/-- Modelled from the spec: a group node of the filter tree (`CohortValues` in
`cohort_models.rs`). -/
structure CohortValues where
  prop_type : String
  values : List PropertyFilter

/-- Modelled from the spec: the combinator node of the filter tree
(`InnerCohortProperty` in `cohort_models.rs`). -/
structure InnerCohortProperty where
  prop_type : CohortPropertyType
  values : List CohortValues

/-- Modelled from the spec: the top-level wrapper holding the `properties`
field (`CohortProperty` in `cohort_models.rs`). -/
structure CohortProperty where
  properties : InnerCohortProperty

/-- The error kinds raised by the operations in `cohort_operations.rs`. -/
inductive FlagError where
  | DatabaseUnavailable : FlagError
  | Internal : String → FlagError
  | CohortFiltersParsingError : FlagError

/-- The cohort record, with the fields selected by `list_from_pg`. -/
structure Cohort where
  id : Int
  name : Option String
  description : Option String
  team_id : Int
  deleted : Bool
  filters : Option Json
  query : Option Json
  version : Option Int
  pending_version : Option Int
  count : Option Int
  is_calculating : Bool
  is_static : Bool
  errors_calculating : Int
  groups : Json
  created_by_id : Option Int

/-- Modelled from the spec: `PropertyFilter::is_cohort` from `cohort_models.rs`
(not in the shown sources); a leaf condition is a cohort reference iff
`key == "id"` and `kind == "cohort"`. -/
def PropertyFilter.is_cohort (f : PropertyFilter) : Bool :=
  f.key == "id" && f.prop_type == "cohort"

/-- Modelled from the spec: decoding of a required string-valued field. -/
def decodeString (o : Option Json) : Except Unit String :=
  match o with
  | some (.str s) => .ok s
  | _ => .error ()

/-- Modelled from the spec: decoding of an optional string-valued field. -/
def decodeOptString (o : Option Json) : Except Unit (Option String) :=
  match o with
  | none => .ok none
  | some .null => .ok none
  | some (.str s) => .ok (some s)
  | some _ => .error ()

/-- Modelled from the spec: decoding of an optional integer-valued field. -/
def decodeOptInt (o : Option Json) : Except Unit (Option Int) :=
  match o with
  | none => .ok none
  | some .null => .ok none
  | some (.int n) => .ok (some n)
  | some _ => .error ()

/-- Modelled from the spec: decoding of an optional boolean-valued field. -/
def decodeOptBool (o : Option Json) : Except Unit (Option Bool) :=
  match o with
  | none => .ok none
  | some .null => .ok none
  | some (.bool b) => .ok (some b)
  | some _ => .error ()

/-- Modelled from the spec: deserialization of a leaf condition.  `key` and
`type` are required text, `value` is a required arbitrary value; `operator`,
`group_type_index` and `negation` are optional; unknown extra fields are
ignored. -/
def decodePropertyFilter (j : Json) : Except Unit PropertyFilter :=
  match decodeString (j.getField ("key")) with
  | .error e => .error e
  | .ok key =>
    match decodeString (j.getField ("type")) with
    | .error e => .error e
    | .ok prop_type =>
      match j.getField ("value") with
      | none => .error ()
      | some value =>
        match decodeOptString (j.getField ("operator")) with
        | .error e => .error e
        | .ok operator =>
          match decodeOptInt (j.getField ("group_type_index")) with
          | .error e => .error e
          | .ok group_type_index =>
            match decodeOptBool (j.getField ("negation")) with
            | .error e => .error e
            | .ok negation =>
              .ok ⟨key, value, operator, prop_type, group_type_index, negation⟩

/-- Modelled from the spec: deserialization of a sequence of leaf conditions. -/
def decodeLeaves (js : List Json) : Except Unit (List PropertyFilter) :=
  match js with
  | [] => .ok []
  | j :: rest =>
    match decodePropertyFilter j with
    | .error e => .error e
    | .ok f =>
      match decodeLeaves rest with
      | .error e => .error e
      | .ok fs => .ok (f :: fs)

/-- Modelled from the spec: deserialization of a group node: a required `type`
text field and a required `values` sequence of leaf conditions. -/
def decodeCohortValues (j : Json) : Except Unit CohortValues :=
  match decodeString (j.getField ("type")) with
  | .error e => .error e
  | .ok prop_type =>
    match j.getField ("values") with
    | some (.arr js) =>
      match decodeLeaves js with
      | .error e => .error e
      | .ok fs => .ok ⟨prop_type, fs⟩
    | _ => .error ()

/-- Modelled from the spec: deserialization of a sequence of group nodes. -/
def decodeGroups (js : List Json) : Except Unit (List CohortValues) :=
  match js with
  | [] => .ok []
  | j :: rest =>
    match decodeCohortValues j with
    | .error e => .error e
    | .ok g =>
      match decodeGroups rest with
      | .error e => .error e
      | .ok gs => .ok (g :: gs)

/-- Modelled from the spec: deserialization of the combinator node: a required
`type` text field, read as an open string, and a required `values` sequence of
group nodes. -/
def decodeInnerCohortProperty (j : Json) : Except Unit InnerCohortProperty :=
  match decodeString (j.getField ("type")) with
  | .error e => .error e
  | .ok prop_type =>
    match j.getField ("values") with
    | some (.arr js) =>
      match decodeGroups js with
      | .error e => .error e
      | .ok gs => .ok ⟨prop_type, gs⟩
    | _ => .error ()

/-- Modelled from the spec: deserialization of the top-level filter value: the
relevant field is `properties`; everything parsed lives beneath it. -/
def decodeCohortProperty (j : Json) : Except Unit CohortProperty :=
  match j.getField ("properties") with
  | some p =>
    match decodeInnerCohortProperty p with
    | .error e => .error e
    | .ok inner => .ok ⟨inner⟩
  | none => .error ()

/-- `InnerCohortProperty::to_inner`: flattens the nested cohort property
structure into a list of property filters (`flat_map` over the groups). -/
def InnerCohortProperty.to_inner (p : InnerCohortProperty) : List PropertyFilter :=
  (p.values.map (fun v => v.values)).flatten

/-- One step of the inner loop of `Cohort::traverse_filters`: a cohort
reference inserts its decoded id (`as_i64`, then the cast to `CohortId`) into
the dependency set, a malformed cohort reference fails, every other leaf
condition is ignored. -/
def insertDep (dependencies : Finset CohortId) (filter : PropertyFilter) :
    Except FlagError (Finset CohortId) :=
  if filter.is_cohort then
    match filter.value.as_i64 with
    | some cohort_id => .ok (insert cohort_id dependencies)
    | none => .error .CohortFiltersParsingError
  else
    .ok dependencies

/-- The inner loop of `Cohort::traverse_filters` over one group's conditions. -/
def traverseConditions (fs : List PropertyFilter) (dependencies : Finset CohortId) :
    Except FlagError (Finset CohortId) :=
  match fs with
  | [] => .ok dependencies
  | f :: rest =>
    match insertDep dependencies f with
    | .ok d => traverseConditions rest d
    | .error e => .error e

/-- The outer loop of `Cohort::traverse_filters` over the groups. -/
def traverseGroups (gs : List CohortValues) (dependencies : Finset CohortId) :
    Except FlagError (Finset CohortId) :=
  match gs with
  | [] => .ok dependencies
  | g :: rest =>
    match traverseConditions g.values dependencies with
    | .ok d => traverseGroups rest d
    | .error e => .error e

/-- `Cohort::traverse_filters`: walks the filter tree accumulating cohort
dependencies (the `&mut` set of the source is threaded explicitly). -/
def Cohort.traverse_filters (inner : InnerCohortProperty) (dependencies : Finset CohortId) :
    Except FlagError (Finset CohortId) :=
  traverseGroups inner.values dependencies

/-- `Cohort::parse_filters`: absent filters yield an empty list; otherwise the
filters deserialize into a `CohortProperty` (failure maps to
`CohortFiltersParsingError`), are flattened, and cohort references are
retained out. -/
def Cohort.parse_filters (c : Cohort) : Except FlagError (List PropertyFilter) :=
  match c.filters with
  | none => .ok []
  | some filters =>
    match decodeCohortProperty filters with
    | .error _ => .error .CohortFiltersParsingError
    | .ok cohort_property =>
      .ok ((cohort_property.properties.to_inner).filter
        (fun f => !(f.key == "id" && f.prop_type == "cohort")))

/-- `Cohort::extract_dependencies`: absent filters yield an empty set;
otherwise the filters deserialize (failure maps to
`CohortFiltersParsingError`) and the tree is traversed from an empty set. -/
def Cohort.extract_dependencies (c : Cohort) : Except FlagError (Finset CohortId) :=
  match c.filters with
  | none => .ok ∅
  | some filters =>
    match decodeCohortProperty filters with
    | .error _ => .error .CohortFiltersParsingError
    | .ok cohort_property => Cohort.traverse_filters cohort_property.properties ∅

/-- Spec-side description of §4.2, for comparison with the implementation: the
integer ids appearing in the cohort-reference leaf conditions of a flattened
condition list, in order. -/
def cohortReferenceIds (fs : List PropertyFilter) : List CohortId :=
  (fs.filter (fun f => f.is_cohort)).filterMap (fun f => f.value.as_i64)

/-- A cohort record with the given filters and neutral remaining fields, used
for concrete instances. -/
def mkCohort (filters : Option Json) : Cohort :=
  ⟨1, some ("Test Cohort"), none, 1, false, filters, none, none, none, none,
    false, false, 0, Json.obj [], none⟩

/-- A concrete ordinary person-property leaf condition. -/
def personFilter : PropertyFilter :=
  ⟨"email", Json.str ("@posthog.com"), some ("icontains"), "person", none, none⟩

/-- A concrete cohort-reference leaf condition for a given id. -/
def leafRef (n : Int) : PropertyFilter :=
  ⟨"id", Json.int n, none, "cohort", none, none⟩

/-- A concrete malformed cohort-reference leaf condition: its value is a list,
not a single integer. -/
def badLeaf : PropertyFilter :=
  ⟨"id", Json.arr [Json.int 123], none, "cohort", none, none⟩

/-- The JSON encoding of `personFilter`. -/
def personLeafJson : Json :=
  Json.obj [(("key"), Json.str ("email")), (("type"), Json.str ("person")),
    (("value"), Json.str ("@posthog.com")), (("operator"), Json.str ("icontains"))]

/-- The JSON encoding of `leafRef n`. -/
def leafRefJson (n : Int) : Json :=
  Json.obj [(("key"), Json.str ("id")), (("type"), Json.str ("cohort")),
    (("value"), Json.int n)]

/-- The JSON encoding of `badLeaf`. -/
def badLeafJson : Json :=
  Json.obj [(("key"), Json.str ("id")), (("type"), Json.str ("cohort")),
    (("value"), Json.arr [Json.int 123])]

/-- A JSON filters value with one group holding the given leaf conditions. -/
def oneGroupFilters (leaves : List Json) : Json :=
  Json.obj [(("properties"), Json.obj [(("type"), Json.str ("OR")),
    (("values"), Json.arr [Json.obj [(("type"), Json.str ("OR")),
      (("values"), Json.arr leaves)]])])]

/-- A concrete group node holding one ordinary person condition. -/
def grpA : CohortValues := ⟨"property", [personFilter]⟩

/-- A concrete group node holding a cohort reference and a person condition. -/
def grpB : CohortValues := ⟨"property", [leafRef 7, personFilter]⟩

/-- A concrete two-group combinator node. -/
def treeAB : InnerCohortProperty := ⟨"AND", [grpA, grpB]⟩

/-- A JSON filters value with two groups, each holding one list of leaf
conditions. -/
def twoGroupFilters (leaves1 leaves2 : List Json) : Json :=
  Json.obj [(("properties"), Json.obj [(("type"), Json.str ("OR")),
    (("values"), Json.arr [Json.obj [(("type"), Json.str ("OR")),
      (("values"), Json.arr leaves1)],
      Json.obj [(("type"), Json.str ("OR")), (("values"), Json.arr leaves2)]])])]

/-- A concrete cohort whose filters reference cohort 7 twice, across two
groups. -/
def dupRefCohort : Cohort :=
  mkCohort (some (twoGroupFilters [leafRefJson 7] [leafRefJson 7]))

/-- The parsed tree of `dupRefCohort`. -/
def dupRefCp : CohortProperty := ⟨⟨"OR", [⟨"OR", [leafRef 7]⟩, ⟨"OR", [leafRef 7]⟩]⟩⟩

/-- A concrete cohort whose filters reference cohort 7 once. -/
def singleRefCohort : Cohort :=
  mkCohort (some (oneGroupFilters [leafRefJson 7]))

/-- The parsed tree of `singleRefCohort`. -/
def singleRefCp : CohortProperty := ⟨⟨"OR", [⟨"OR", [leafRef 7]⟩]⟩⟩

theorem insertDep_error {s : Finset CohortId} {f : PropertyFilter} {e : FlagError}
    (h : insertDep s f = .error e) : e = FlagError.CohortFiltersParsingError := by
  unfold insertDep at h
  split at h
  · split at h
    · exact Except.noConfusion h
    · exact (Except.error.inj h).symm
  · exact Except.noConfusion h

theorem insertDep_subset {s d : Finset CohortId} {f : PropertyFilter}
    (h : insertDep s f = .ok d) : s ⊆ d := by
  unfold insertDep at h
  split at h
  · split at h
    · cases h
      exact Finset.subset_insert _ _
    · exact Except.noConfusion h
  · cases h
    exact Finset.Subset.refl _

theorem insertDep_absorb {s d d2 : Finset CohortId} {f : PropertyFilter}
    (h : insertDep s f = .ok d) (hsub : d ⊆ d2) : insertDep d2 f = .ok d2 := by
  by_cases hc : f.is_cohort
  · cases hv : f.value.as_i64 with
    | some n =>
      have hd : d = insert n s := by
        unfold insertDep at h
        rw [if_pos hc, hv] at h
        exact (Except.ok.inj h).symm
      have hn : n ∈ d2 := hsub (hd ▸ Finset.mem_insert_self n s)
      unfold insertDep
      rw [if_pos hc, hv]
      show Except.ok (insert n d2) = Except.ok d2
      rw [Finset.insert_eq_self.mpr hn]
    | none =>
      exfalso
      unfold insertDep at h
      rw [if_pos hc, hv] at h
      exact Except.noConfusion h
  · unfold insertDep
    rw [if_neg hc]

theorem traverseConditions_append (l1 l2 : List PropertyFilter) (s : Finset CohortId) :
    traverseConditions (l1 ++ l2) s =
      match traverseConditions l1 s with
      | .ok d => traverseConditions l2 d
      | .error e => .error e := by
  induction l1 generalizing s with
  | nil => rfl
  | cons f fs ih =>
    simp only [List.cons_append, traverseConditions]
    cases h : insertDep s f with
    | ok d => exact ih d
    | error e => rfl

theorem traverseGroups_eq_flatten (gs : List CohortValues) (s : Finset CohortId) :
    traverseGroups gs s = traverseConditions ((gs.map (fun g => g.values)).flatten) s := by
  induction gs generalizing s with
  | nil => rfl
  | cons g rest ih =>
    simp only [List.map_cons, List.flatten_cons, traverseGroups, traverseConditions_append]
    cases h : traverseConditions g.values s with
    | ok d => exact ih d
    | error e => rfl

theorem traverse_filters_eq_to_inner (p : InnerCohortProperty) (s : Finset CohortId) :
    Cohort.traverse_filters p s = traverseConditions p.to_inner s :=
  traverseGroups_eq_flatten p.values s

theorem traverseConditions_subset {l : List PropertyFilter} {s d : Finset CohortId}
    (h : traverseConditions l s = .ok d) : s ⊆ d := by
  induction l generalizing s with
  | nil =>
    cases h
    exact Finset.Subset.refl _
  | cons f fs ih =>
    unfold traverseConditions at h
    cases hi : insertDep s f with
    | ok d1 =>
      rw [hi] at h
      exact (insertDep_subset hi).trans (ih h)
    | error e =>
      rw [hi] at h
      exact Except.noConfusion h

theorem traverseConditions_dup (a b c : List PropertyFilter) (f : PropertyFilter)
    (s : Finset CohortId) :
    traverseConditions (a ++ (f :: (b ++ (f :: c)))) s =
      traverseConditions (a ++ (f :: (b ++ c))) s := by
  rw [traverseConditions_append a (f :: (b ++ (f :: c))) s,
    traverseConditions_append a (f :: (b ++ c)) s]
  cases h : traverseConditions a s with
  | error e => rfl
  | ok s1 =>
    simp only [traverseConditions]
    cases h2 : insertDep s1 f with
    | error e => rfl
    | ok s2 =>
      show traverseConditions (b ++ (f :: c)) s2 = traverseConditions (b ++ c) s2
      rw [traverseConditions_append b (f :: c) s2, traverseConditions_append b c s2]
      cases h3 : traverseConditions b s2 with
      | error e => rfl
      | ok s3 =>
        have habs : insertDep s3 f = .ok s3 :=
          insertDep_absorb h2 (traverseConditions_subset h3)
        simp only [traverseConditions, habs]

theorem traverseConditions_ok_of_decodable (l : List PropertyFilter) (s : Finset CohortId)
    (h : ∀ f ∈ l, f.is_cohort = true → (f.value.as_i64).isSome = true) :
    traverseConditions l s = .ok (s ∪ (cohortReferenceIds l).toFinset) := by
  induction l generalizing s with
  | nil => simp [traverseConditions, cohortReferenceIds]
  | cons f fs ih =>
    by_cases hc : f.is_cohort
    · obtain ⟨n, hn⟩ := Option.isSome_iff_exists.mp (h f (List.mem_cons_self f fs) hc)
      simp only [traverseConditions, insertDep, hc, if_true, hn]
      rw [ih _ (fun g hg => h g (List.mem_cons_of_mem f hg))]
      have hids : cohortReferenceIds (f :: fs) = n :: cohortReferenceIds fs := by
        simp [cohortReferenceIds, List.filter_cons, hc, hn]
      rw [hids, List.toFinset_cons, Finset.insert_union, Finset.union_insert]
    · have hstep : insertDep s f = .ok s := by
        unfold insertDep
        rw [if_neg hc]
      simp only [traverseConditions, hstep]
      rw [ih _ (fun g hg => h g (List.mem_cons_of_mem f hg))]
      have hids : cohortReferenceIds (f :: fs) = cohortReferenceIds fs := by
        simp only [Bool.not_eq_true] at hc
        simp [cohortReferenceIds, List.filter_cons, hc]
      rw [hids]

theorem traverseConditions_error_of_bad (l : List PropertyFilter) :
    ∀ (s : Finset CohortId) (f : PropertyFilter), f ∈ l → f.is_cohort = true →
      f.value.as_i64 = none →
      traverseConditions l s = .error FlagError.CohortFiltersParsingError := by
  induction l with
  | nil =>
    intro s f hm
    cases hm
  | cons g gs ih =>
    intro s f hm hc hv
    rcases List.mem_cons.mp hm with hg | hg
    · subst hg
      simp [traverseConditions, insertDep, hc, hv]
    · cases hi : insertDep s g with
      | ok d =>
        simp only [traverseConditions, hi]
        exact ih d f hg hc hv
      | error e =>
        have he := insertDep_error hi
        subst he
        simp [traverseConditions, hi]

theorem flatten_drop_take {α : Type} (pre : List (List α)) (x : List α)
    (post : List (List α)) :
    (((pre ++ x :: post).flatten.drop ((pre.map List.length).sum)).take x.length) = x := by
  induction pre with
  | nil =>
    simp only [List.nil_append, List.flatten_cons, List.map_nil, List.sum_nil, List.drop_zero]
    exact List.take_left x post.flatten
  | cons y ys ih =>
    simp only [List.cons_append, List.flatten_cons, List.map_cons, List.sum_cons,
      List.drop_append]
    exact ih

/-- C1: for every cohort whose filters deserialize into the two-level tree and
whose cohort-reference leaf conditions all carry single-integer values,
`extract_dependencies` returns exactly the set of integer ids appearing in
cohort-reference leaf conditions (key `id`, kind `cohort`) across all groups;
every other leaf condition contributes nothing, and an empty tree yields the
empty set. -/
theorem extract_dependencies_exact (c : Cohort) (j : Json) (cp : CohortProperty)
    (hf : c.filters = some j) (hd : decodeCohortProperty j = .ok cp)
    (hall : ∀ f ∈ cp.properties.to_inner, f.is_cohort = true → (f.value.as_i64).isSome = true) :
    c.extract_dependencies = .ok (cohortReferenceIds cp.properties.to_inner).toFinset := by
  simp only [Cohort.extract_dependencies, hf, hd]
  rw [traverse_filters_eq_to_inner, traverseConditions_ok_of_decodable _ _ hall,
    Finset.empty_union]

/-- C1 witness: a cohort with one group holding a cohort reference to id 42 and
an ordinary person condition extracts exactly the set containing 42. -/
theorem extract_dependencies_exact_witness :
    (mkCohort (some (oneGroupFilters [leafRefJson 42, personLeafJson]))).filters =
        some (oneGroupFilters [leafRefJson 42, personLeafJson]) ∧
    decodeCohortProperty (oneGroupFilters [leafRefJson 42, personLeafJson]) =
        .ok ⟨⟨"OR", [⟨"OR", [leafRef 42, personFilter]⟩]⟩⟩ ∧
    (∀ f ∈ (⟨⟨"OR", [⟨"OR", [leafRef 42, personFilter]⟩]⟩⟩ : CohortProperty).properties.to_inner,
        f.is_cohort = true → (f.value.as_i64).isSome = true) ∧
    (mkCohort (some (oneGroupFilters [leafRefJson 42, personLeafJson]))).extract_dependencies =
      .ok (cohortReferenceIds
        (⟨⟨"OR", [⟨"OR", [leafRef 42, personFilter]⟩]⟩⟩ : CohortProperty).properties.to_inner).toFinset :=
  ⟨rfl, rfl, by decide,
    extract_dependencies_exact _ _ _ rfl rfl (by decide)⟩

/-- C2: for every cohort whose filters deserialize and contain a
cohort-reference leaf condition whose value does not decode as a single
integer, `extract_dependencies` fails with `CohortFiltersParsingError`; no
partial dependency set is returned. -/
theorem extract_dependencies_malformed_reference (c : Cohort) (j : Json)
    (cp : CohortProperty) (f : PropertyFilter) (hf : c.filters = some j)
    (hd : decodeCohortProperty j = .ok cp) (hm : f ∈ cp.properties.to_inner)
    (hc : f.is_cohort = true) (hv : f.value.as_i64 = none) :
    c.extract_dependencies = .error FlagError.CohortFiltersParsingError := by
  simp only [Cohort.extract_dependencies, hf, hd]
  rw [traverse_filters_eq_to_inner]
  exact traverseConditions_error_of_bad _ _ f hm hc hv

/-- C2 witness: a cohort whose single cohort-reference leaf carries a list
value fails with the filters-schema parsing error. -/
theorem extract_dependencies_malformed_reference_witness :
    (mkCohort (some (oneGroupFilters [badLeafJson]))).filters =
        some (oneGroupFilters [badLeafJson]) ∧
    decodeCohortProperty (oneGroupFilters [badLeafJson]) =
        .ok ⟨⟨"OR", [⟨"OR", [badLeaf]⟩]⟩⟩ ∧
    badLeaf ∈ (⟨⟨"OR", [⟨"OR", [badLeaf]⟩]⟩⟩ : CohortProperty).properties.to_inner ∧
    badLeaf.is_cohort = true ∧
    badLeaf.value.as_i64 = none ∧
    (mkCohort (some (oneGroupFilters [badLeafJson]))).extract_dependencies =
      .error FlagError.CohortFiltersParsingError :=
  ⟨rfl, rfl, List.Mem.head _, rfl, rfl,
    extract_dependencies_malformed_reference _ _ _ badLeaf rfl rfl (List.Mem.head _) rfl rfl⟩

/-- C3: for every cohort with absent filters, `parse_filters` returns the
empty list of property filters and `extract_dependencies` returns the empty
set; neither returns an error. -/
theorem absent_filters_are_empty (c : Cohort) (h : c.filters = none) :
    c.parse_filters = .ok [] ∧ c.extract_dependencies = .ok ∅ := by
  constructor
  · simp only [Cohort.parse_filters, h]
  · simp only [Cohort.extract_dependencies, h]

/-- C3 witness: a concrete cohort without filters parses to the empty list and
the empty dependency set. -/
theorem absent_filters_are_empty_witness :
    (mkCohort none).filters = none ∧
    (mkCohort none).parse_filters = .ok [] ∧
    (mkCohort none).extract_dependencies = .ok ∅ :=
  ⟨rfl, (absent_filters_are_empty (mkCohort none) rfl).1,
    (absent_filters_are_empty (mkCohort none) rfl).2⟩

/-- C4: for every cohort whose filters parse successfully, the list returned
by `parse_filters` contains no cohort-membership reference: no element has
key `id` together with kind `cohort`. -/
theorem parse_filters_no_cohort_references (c : Cohort) (props : List PropertyFilter)
    (h : c.parse_filters = .ok props) :
    ∀ f ∈ props, ¬(f.key = "id" ∧ f.prop_type = "cohort") := by
  intro f hm hand
  cases hc : c.filters with
  | none =>
    simp only [Cohort.parse_filters, hc] at h
    cases h
    cases hm
  | some j =>
    cases hd : decodeCohortProperty j with
    | error e =>
      simp only [Cohort.parse_filters, hc, hd] at h
      exact Except.noConfusion h
    | ok cp =>
      simp only [Cohort.parse_filters, hc, hd, Except.ok.injEq] at h
      subst h
      have hflt := List.of_mem_filter hm
      rw [hand.1, hand.2] at hflt
      simp at hflt

/-- C4 witness: a cohort whose filters hold a cohort reference and a person
condition parses to a list containing only the person condition, which is not
a cohort reference. -/
theorem parse_filters_no_cohort_references_witness :
    (mkCohort (some (oneGroupFilters [leafRefJson 42, personLeafJson]))).parse_filters =
        .ok [personFilter] ∧
    personFilter ∈ [personFilter] ∧
    ¬(personFilter.key = "id" ∧ personFilter.prop_type = "cohort") :=
  ⟨rfl, List.Mem.head _,
    parse_filters_no_cohort_references
      (mkCohort (some (oneGroupFilters [leafRefJson 42, personLeafJson])))
      [personFilter] rfl personFilter (List.Mem.head _)⟩

/-- C5: flattening a parsed tree yields a sequence of length equal to the sum
of the group sizes, and the segment of the flattened sequence at each group's
offset is exactly that group's conditions, in the group's own order. -/
theorem to_inner_length_and_order (p : InnerCohortProperty) :
    p.to_inner.length = (p.values.map (fun g => g.values.length)).sum ∧
    ∀ (pre : List CohortValues) (g : CohortValues) (post : List CohortValues),
      p.values = pre ++ g :: post →
      ((p.to_inner.drop ((pre.map (fun v => v.values.length)).sum)).take g.values.length)
        = g.values := by
  constructor
  · simp [InnerCohortProperty.to_inner, List.length_flatten, List.map_map, Function.comp_def]
  · intro pre g post hp
    have hto : p.to_inner =
        ((pre.map (fun v => v.values)) ++ g.values :: (post.map (fun v => v.values))).flatten := by
      simp [InnerCohortProperty.to_inner, hp]
    have hsum : (pre.map (fun v => v.values.length)).sum =
        ((pre.map (fun v => v.values)).map List.length).sum := by
      rw [List.map_map]
      rfl
    rw [hto, hsum]
    exact flatten_drop_take _ _ _

/-- C5 witness: a tree with two groups of sizes 1 and 2 flattens to length 3,
and the segment at the second group's offset is the second group's conditions. -/
theorem to_inner_length_and_order_witness :
    treeAB.values = [grpA] ++ grpB :: [] ∧
    treeAB.to_inner.length = (treeAB.values.map (fun g => g.values.length)).sum ∧
    ((treeAB.to_inner.drop (([grpA].map (fun v => v.values.length)).sum)).take
        grpB.values.length) = grpB.values :=
  ⟨rfl, (to_inner_length_and_order treeAB).1,
    (to_inner_length_and_order treeAB).2 [grpA] grpB [] rfl⟩

/-- C6: a filters value that is well-shaped but whose top-level combinator
type is an arbitrary string is parsed successfully, and the combinator string
is preserved in the resulting tree. -/
theorem combinator_open_string (t : String) (gs : List Json) (cvs : List CohortValues)
    (h : decodeGroups gs = .ok cvs) :
    decodeCohortProperty (Json.obj [(("properties"), Json.obj [(("type"), Json.str t),
        (("values"), Json.arr gs)])]) = .ok ⟨⟨t, cvs⟩⟩ ∧
    (⟨⟨t, cvs⟩⟩ : CohortProperty).properties.prop_type = t := by
  constructor
  · have h2 : decodeInnerCohortProperty (Json.obj [(("type"), Json.str t),
        (("values"), Json.arr gs)]) = .ok ⟨t, cvs⟩ := by
      have hred : decodeInnerCohortProperty (Json.obj [(("type"), Json.str t),
          (("values"), Json.arr gs)]) =
          match decodeGroups gs with
          | .error e => .error e
          | .ok gs2 => .ok ⟨t, gs2⟩ := rfl
      rw [hred, h]
    have hred2 : decodeCohortProperty (Json.obj [(("properties"),
        Json.obj [(("type"), Json.str t), (("values"), Json.arr gs)])]) =
        match decodeInnerCohortProperty (Json.obj [(("type"), Json.str t),
          (("values"), Json.arr gs)]) with
        | .error e => .error e
        | .ok inner => .ok ⟨inner⟩ := rfl
    rw [hred2, h2]
  · rfl

/-- C6 witness: the unknown combinator string XOR is preserved on a well-shaped
filters value with no groups. -/
theorem combinator_open_string_witness :
    decodeGroups ([] : List Json) = .ok [] ∧
    decodeCohortProperty (Json.obj [(("properties"), Json.obj [(("type"),
        Json.str ("XOR")), (("values"), Json.arr [])])]) = .ok ⟨⟨"XOR", []⟩⟩ ∧
    (⟨⟨"XOR", []⟩⟩ : CohortProperty).properties.prop_type = "XOR" :=
  ⟨rfl, (combinator_open_string ("XOR") [] [] rfl).1,
    (combinator_open_string ("XOR") [] [] rfl).2⟩

/-- C7: for any two cohorts whose parsed filter trees differ only in that one
carries a second copy of a leaf condition (within one group or across groups,
at any position), `extract_dependencies` gives the same result; in particular
a duplicated cohort reference contributes its id only once. -/
theorem extract_dependencies_duplicate_collapse (c1 c2 : Cohort) (j1 j2 : Json)
    (cp1 cp2 : CohortProperty) (a b d : List PropertyFilter) (f : PropertyFilter)
    (hf1 : c1.filters = some j1) (hd1 : decodeCohortProperty j1 = .ok cp1)
    (hf2 : c2.filters = some j2) (hd2 : decodeCohortProperty j2 = .ok cp2)
    (hdup : cp2.properties.to_inner = a ++ (f :: (b ++ (f :: d))))
    (hone : cp1.properties.to_inner = a ++ (f :: (b ++ d))) :
    c2.extract_dependencies = c1.extract_dependencies := by
  simp only [Cohort.extract_dependencies, hf1, hf2, hd1, hd2]
  rw [traverse_filters_eq_to_inner, traverse_filters_eq_to_inner, hdup, hone,
    traverseConditions_dup]

/-- C7 witness: referencing cohort 7 from two different groups extracts the
same dependency set as referencing it once. -/
theorem extract_dependencies_duplicate_collapse_witness :
    dupRefCohort.filters = some (twoGroupFilters [leafRefJson 7] [leafRefJson 7]) ∧
    decodeCohortProperty (twoGroupFilters [leafRefJson 7] [leafRefJson 7]) = .ok dupRefCp ∧
    singleRefCohort.filters = some (oneGroupFilters [leafRefJson 7]) ∧
    decodeCohortProperty (oneGroupFilters [leafRefJson 7]) = .ok singleRefCp ∧
    dupRefCp.properties.to_inner = [] ++ (leafRef 7 :: ([] ++ (leafRef 7 :: []))) ∧
    singleRefCp.properties.to_inner = [] ++ (leafRef 7 :: ([] ++ [])) ∧
    dupRefCohort.extract_dependencies = singleRefCohort.extract_dependencies :=
  ⟨rfl, rfl, rfl, rfl, rfl, rfl,
    extract_dependencies_duplicate_collapse singleRefCohort dupRefCohort
      (oneGroupFilters [leafRefJson 7]) (twoGroupFilters [leafRefJson 7] [leafRefJson 7])
      singleRefCp dupRefCp [] [] [] (leafRef 7) rfl rfl rfl rfl rfl rfl⟩

/-- C8: there is a cohort on which `parse_filters` succeeds (the malformed
cohort reference is deserialized and then retained out) while
`extract_dependencies` fails with `CohortFiltersParsingError`. -/
theorem parse_succeeds_extract_fails :
    (mkCohort (some (oneGroupFilters [badLeafJson]))).parse_filters = .ok [] ∧
    (mkCohort (some (oneGroupFilters [badLeafJson]))).extract_dependencies =
      .error FlagError.CohortFiltersParsingError :=
  ⟨rfl, rfl⟩

/-- C9: no positivity or range check is performed on decoded cohort ids: any
value that decodes as an i64, including zero and negative integers, is
inserted into the dependency set and no error is raised. -/
theorem extract_dependencies_no_positivity_check (n : Int)
    (h1 : -(2 ^ 63) ≤ n) (h2 : n < 2 ^ 63) :
    (mkCohort (some (oneGroupFilters [leafRefJson n]))).extract_dependencies = .ok {n} := by
  have hdec : (mkCohort (some (oneGroupFilters [leafRefJson n]))).extract_dependencies =
      Cohort.traverse_filters ⟨"OR", [⟨"OR", [leafRef n]⟩]⟩ ∅ := rfl
  have hv : (leafRef n).value.as_i64 = some n := by
    show Json.as_i64 (Json.int n) = some n
    unfold Json.as_i64
    exact if_pos ⟨h1, h2⟩
  have hstep : insertDep ∅ (leafRef n) = .ok {n} := by
    unfold insertDep
    rw [if_pos (show (leafRef n).is_cohort = true from rfl), hv]
    rfl
  have honestep : traverseConditions [leafRef n] ∅ = .ok {n} := by
    simp only [traverseConditions, hstep]
  rw [hdec, traverse_filters_eq_to_inner]
  exact honestep

/-- C9 witness: the ids 0 and -5 are both inserted without error. -/
theorem extract_dependencies_no_positivity_check_witness :
    (-(2 ^ 63) ≤ (0 : Int) ∧ (0 : Int) < 2 ^ 63 ∧
      (mkCohort (some (oneGroupFilters [leafRefJson 0]))).extract_dependencies =
        .ok {(0 : Int)}) ∧
    (-(2 ^ 63) ≤ (-5 : Int) ∧ (-5 : Int) < 2 ^ 63 ∧
      (mkCohort (some (oneGroupFilters [leafRefJson (-5)]))).extract_dependencies =
        .ok {(-5 : Int)}) :=
  ⟨⟨by decide, by decide,
      extract_dependencies_no_positivity_check 0 (by decide) (by decide)⟩,
    ⟨by decide, by decide,
      extract_dependencies_no_positivity_check (-5) (by decide) (by decide)⟩⟩

/-- C10: `parse_filters` and `extract_dependencies` are deterministic: two
invocations on equal cohort values return equal results.  In this embedding
both operations are pure functions of the cohort value, so neither can modify
the cohort it reads. -/
theorem operations_deterministic (c1 c2 : Cohort) (h : c1 = c2) :
    c1.parse_filters = c2.parse_filters ∧
      c1.extract_dependencies = c2.extract_dependencies := by
  subst h
  exact ⟨rfl, rfl⟩

/-- C10 witness: determinism instantiated at a concrete cohort. -/
theorem operations_deterministic_witness :
    singleRefCohort = singleRefCohort ∧
    singleRefCohort.parse_filters = singleRefCohort.parse_filters ∧
    singleRefCohort.extract_dependencies = singleRefCohort.extract_dependencies :=
  ⟨rfl, (operations_deterministic singleRefCohort singleRefCohort rfl).1,
    (operations_deterministic singleRefCohort singleRefCohort rfl).2⟩
